import Mathlib

/-!
cs2-voice-tools: the `extract` command.

A shallow embedding of `cmd/extract.go` (the `RunE` body of `extractCmd`) together with the
Go standard-library functions it calls, and the properties of the command that the
specification relies on.

Conventions of the embedding:

* a Go `string` is a Lean `String`, read as its sequence of runes (`String.data`); byte
  sequences that are not valid UTF-8 have no counterpart in the model;
* `extract.GetSupportedFormats`, `extract.ExtractVoiceData`, the global `Opts` and the case table
  behind `unicode.ToLower` live outside `cmd/extract.go`; they are the fields of `Env`;
* side effects are recorded in the returned `Outcome`: the calls made to `ExtractVoiceData`, the
  identifiers reported through `slog.Warn`, and the lines printed on standard output;
* the Timeline Mixer/Padder is part of the core and is modelled from §4.5 of the specification.
-/

set_option autoImplicit false

namespace Cs2VoiceTools

/-! ## Go standard library -/

/-- Go `unicode.IsSpace`: in Latin-1 the runes `\t \n \v \f \r`, space, U+0085 and U+00A0;
above Latin-1 the `White_Space` property. -/
def IsSpace (r : Char) : Bool :=
  if r.toNat ≤ 0xFF then
    r.toNat == 0x09 || r.toNat == 0x0A || r.toNat == 0x0B || r.toNat == 0x0C || r.toNat == 0x0D
      || r.toNat == 0x20 || r.toNat == 0x85 || r.toNat == 0xA0
  else
    r.toNat == 0x1680 || (0x2000 ≤ r.toNat && r.toNat ≤ 0x200A) || r.toNat == 0x2028
      || r.toNat == 0x2029 || r.toNat == 0x202F || r.toNat == 0x205F || r.toNat == 0x3000

/-- Go `strings.TrimLeftFunc(s, unicode.IsSpace)` on runes. -/
def trimLeftSpace (s : List Char) : List Char :=
  s.dropWhile IsSpace

/-- Go `strings.TrimRightFunc(s, unicode.IsSpace)` on runes. -/
def trimRightSpace (s : List Char) : List Char :=
  (s.reverse.dropWhile IsSpace).reverse

/-- Go `strings.TrimSpace`: all leading and trailing white space removed. -/
def TrimSpace (s : String) : String :=
  ⟨trimRightSpace (trimLeftSpace s.data)⟩

/-- The pieces of a rune sequence between the occurrences of the separator rune. -/
def splitRunes (sep : Char) : List Char → List (List Char)
  | [] => [[]]
  | c :: cs =>
    if c = sep then [] :: splitRunes sep cs
    else
      match splitRunes sep cs with
      | [] => [[c]]
      | p :: ps => (c :: p) :: ps

/-- Go `strings.Split(s, sep)` for a separator of one rune (the command passes `","`):
the substrings between the separators, `[""]` for the empty string. -/
def Split (s : String) (sep : Char) : List String :=
  (splitRunes sep s.data).map String.mk

/-- Go `strings.Join(elems, sep)`. -/
def Join (elems : List String) (sep : String) : String :=
  sep.intercalate elems

/-- Go `unicode.ToLower`: ASCII letters are shifted by `'a' - 'A'`, other ASCII runes are
unchanged, and a rune above ASCII is looked up in the case table (`unicode.CaseRanges`),
which is the argument `caseRanges`. -/
def toLowerRune (caseRanges : Char → Char) (r : Char) : Char :=
  if r.toNat ≤ 0x7F then
    if 0x41 ≤ r.toNat ∧ r.toNat ≤ 0x5A then Char.ofNat (r.toNat + (0x61 - 0x41)) else r
  else caseRanges r

/-- Go `strings.ToLower`: every rune mapped to its lower case. -/
def ToLower (caseRanges : Char → Char) (s : String) : String :=
  ⟨s.data.map (toLowerRune caseRanges)⟩

/-- One position of an anchored regular expression: a literal rune, or the class `\d`. -/
inductive RuneClass where
  | lit (c : Char)
  | digit
  deriving DecidableEq, Repr

/-- Whether a rune belongs to a class; `\d` is `[0-9]` in Go (RE2) syntax. -/
def RuneClass.accepts : RuneClass → Char → Bool
  | .lit c, r => r == c
  | .digit, r => 0x30 ≤ r.toNat && r.toNat ≤ 0x39

/-- Matching of `^c₁c₂…cₙ$`: `^` and `$` are the two ends of the text (no multi-line flag),
so the whole text is consumed, one class per rune. -/
def matchAnchored : List RuneClass → List Char → Bool
  | [], [] => true
  | k :: ks, r :: rs => k.accepts r && matchAnchored ks rs
  | _, _ => false

/-- Go `(*Regexp).MatchString` for an anchored sequence of rune classes. -/
def MatchString (re : List RuneClass) (s : String) : Bool :=
  matchAnchored re s.data

/-! ## `cmd/extract.go` -/

/-- The regular expression `^7656\d{13}$`. -/
def steamID64Regex : List RuneClass :=
  [.lit '7', .lit '6', .lit '5', .lit '6'] ++ List.replicate 13 .digit

/-- Go `extract.ExtractOptions`, as built by the command. -/
structure ExtractOptions where
  DemoPath : String
  OutputDir : String
  ForceOverwrite : Bool
  PlayerIDs : List String
  Format : String
  deriving DecidableEq, Repr

/-- The global `Opts` fields the command reads. -/
structure GlobalOptions where
  AbsOutputDir : String
  ForceOverwrite : Bool
  deriving DecidableEq, Repr

/-- A Go `error` returned by the command: built here by `fmt.Errorf`, or the value that
`ExtractVoiceData` returned. -/
inductive CmdError (E : Type) where
  | errorf (msg : String)
  | core (e : E)
  deriving DecidableEq, Repr

/-- What the command uses from outside `cmd/extract.go`. -/
structure Env (E : Type) where
  caseRanges : Char → Char
  GetSupportedFormats : List String
  ExtractVoiceData : ExtractOptions → Option E
  Opts : GlobalOptions

/-- The observable behaviour of one run: the returned error (`none` is `nil`), the calls to
`ExtractVoiceData` in order, the identifiers logged by `slog.Warn`, and the printed lines. -/
structure Outcome (E : Type) where
  err : Option (CmdError E)
  calls : List ExtractOptions
  warned : List String
  stdout : List String
  deriving DecidableEq, Repr

/-- The loop over the split player filter (lines 42-57), started with the lists built so far:
the first component is `playerIDs`, the second `invalidIDs`. -/
def playerLoop : List String → List String × List String → List String × List String
  | [], acc => acc
  | id :: rest, (playerIDs, invalidIDs) =>
    let id := TrimSpace id
    if id = "" then playerLoop rest (playerIDs, invalidIDs)
    else if !MatchString steamID64Regex id then playerLoop rest (playerIDs, invalidIDs ++ [id])
    else playerLoop rest (playerIDs ++ [id], invalidIDs)

/-- The lists `playerIDs` and `invalidIDs` after the block `if playerFilter != ""`. -/
def parsePlayers (playerFilter : String) : List String × List String :=
  if playerFilter ≠ "" then playerLoop (Split playerFilter ',') ([], []) else ([], [])

/-- The loop over the supported formats (lines 75-80): the final `isFormatValid`. -/
def formatLoop (format : String) : List String → Bool
  | [] => false
  | supportedFormat :: rest => if format = supportedFormat then true else formatLoop format rest

/-- The success message printed at the end of the command (lines 102-109). -/
def successMessage (absOutputDir : String) (playerIDs : List String) (format : String) : String :=
  let msg := "Voice data extraction complete. Files saved to: " ++ absOutputDir
  let msg := if playerIDs.length > 0 then
    msg ++ (" (filtered to " ++ toString playerIDs.length ++ " players)") else msg
  if format ≠ "wav" then msg ++ (" (format: " ++ format ++ ")") else msg

/-- The body of `extractCmd.RunE`, with `demoPath = args[0]` (`cobra.ExactArgs(1)` admits exactly
one positional argument), `playerFilter` the value of `--players` and `formatOption` the value
of `--format`. -/
def RunE {E : Type} (env : Env E) (playerFilter formatOption demoPath : String) : Outcome E :=
  let playerIDs := (parsePlayers playerFilter).1
  let invalidIDs := (parsePlayers playerFilter).2
  if playerFilter ≠ "" ∧ playerIDs.length = 0 ∧ invalidIDs.length > 0 then
    ⟨some (.errorf ("no valid SteamID64s provided, received: " ++ Join invalidIDs ", ")),
      [], invalidIDs, []⟩
  else
    let lowered := ToLower env.caseRanges formatOption
    let format := if lowered = "" then "wav" else lowered
    let isFormatValid := if lowered = "" then true else formatLoop lowered env.GetSupportedFormats
    if !isFormatValid then
      ⟨some (.errorf ("unsupported format: " ++ format ++ " (supported formats: "
        ++ Join env.GetSupportedFormats ", " ++ ")")), [], invalidIDs, []⟩
    else
      let options : ExtractOptions :=
        ⟨demoPath, env.Opts.AbsOutputDir, env.Opts.ForceOverwrite, playerIDs, format⟩
      match env.ExtractVoiceData options with
      | some e => ⟨some (.core e), [options], invalidIDs, []⟩
      | none =>
        ⟨none, [options], invalidIDs, [successMessage env.Opts.AbsOutputDir playerIDs format]⟩

/-! ## The validation rules in the words of the specification -/

/-- The non-empty tokens of the player filter: split on `,`, trim, drop the empty ones. -/
def specTokens (playerFilter : String) : List String :=
  ((Split playerFilter ',').map TrimSpace).filter (fun t => t ≠ "")

/-- The tokens that are SteamID64s, in their order, duplicates kept. -/
def specPlayerIDs (playerFilter : String) : List String :=
  (specTokens playerFilter).filter (fun t => MatchString steamID64Regex t)

/-- The non-empty tokens that are not SteamID64s, in their order. -/
def specInvalidIDs (playerFilter : String) : List String :=
  (specTokens playerFilter).filter (fun t => !MatchString steamID64Regex t)

/-- The player filter is rejected: it is non-empty, some token is non-empty after trimming,
and no trimmed token is a SteamID64. -/
def PlayersRejected (playerFilter : String) : Prop :=
  playerFilter ≠ "" ∧ (∃ t ∈ Split playerFilter ',', TrimSpace t ≠ "") ∧
    ∀ t ∈ Split playerFilter ',', MatchString steamID64Regex (TrimSpace t) = false

instance decidablePlayersRejected (playerFilter : String) :
    Decidable (PlayersRejected playerFilter) := by
  unfold PlayersRejected; infer_instance

/-- The format is rejected: its lower-casing is non-empty and is not a supported format. -/
def FormatRejected (caseRanges : Char → Char) (supported : List String) (formatOption : String) :
    Prop :=
  ToLower caseRanges formatOption ≠ "" ∧ ToLower caseRanges formatOption ∉ supported

instance decidableFormatRejected (caseRanges : Char → Char) (supported : List String)
    (formatOption : String) :
    Decidable (FormatRejected caseRanges supported formatOption) := by
  unfold FormatRejected; infer_instance

/-- The command returned the error `no valid SteamID64s provided, received: ...`. -/
def IsNoValidIDsError {E : Type} (err : Option (CmdError E)) : Prop :=
  ∃ rest : String, err = some (.errorf ("no valid SteamID64s provided, received: " ++ rest))

/-- The command returned the error `unsupported format: ...`. -/
def IsUnsupportedFormatError {E : Type} (err : Option (CmdError E)) : Prop :=
  ∃ rest : String, err = some (.errorf ("unsupported format: " ++ rest))

/-- The options the specification expects the core to receive. -/
def specOptions {E : Type} (env : Env E) (playerFilter formatOption demoPath : String) :
    ExtractOptions :=
  ⟨demoPath, env.Opts.AbsOutputDir, env.Opts.ForceOverwrite, specPlayerIDs playerFilter,
    if ToLower env.caseRanges formatOption = "" then "wav"
    else ToLower env.caseRanges formatOption⟩

/-! ## Timeline Mixer/Padder

The mixer belongs to the core package `internal/extract`, which the command only calls; it is
described in §3 and §4.5 of the specification. -/

/-- Modelled from the spec: the `PCMBlock` of §3, emitted by the Voice Decoder for one packet,
`{startTick, sampleRate, channelCount, samples}`, the samples being signed amplitudes. The type
is part of the core package, which is not among the sources. -/
structure PCMBlock where
  startTick : Nat
  sampleRate : Nat
  channelCount : Nat
  samples : List Int
  deriving DecidableEq, Repr

/-- Modelled from the spec: one step of the walk of §4.5 over the blocks in tick order (the
Timeline Mixer/Padder of the core package is not among the sources). The block is located at
the sample `(startTick − globalStartTick) × samplesPerTick` of the buffer; samples of a block
that lie before `globalStartTick` are outside the buffer of §3 and are left out; audio already
written past the block's start belongs to an earlier, overlapping block, which is truncated
there, the later block being kept; silence (zero samples) fills the gap up to the block. -/
def placeBlock (globalStartTick samplesPerTick : Nat) (out : List Int) (b : PCMBlock) :
    List Int :=
  let offset := (b.startTick - globalStartTick) * samplesPerTick
  let inWindow := b.samples.drop ((globalStartTick - b.startTick) * samplesPerTick)
  let kept := out.take offset
  kept ++ List.replicate (offset - kept.length) 0 ++ inWindow

/-- Modelled from the spec: the Timeline Mixer/Padder of §4.5 (core package, not among the
sources): walk the blocks in tick order, inserting silence between the global start and the
first block and between consecutive blocks, then insert silence between the last block and the
global end. The result is the player's `DenseAudioBuffer`, which by §3 spans
`[globalStartTick, globalEndTick]`: what a block holds past `globalEndTick` is outside it. -/
def mixTimeline (globalStartTick globalEndTick samplesPerTick : Nat) (blocks : List PCMBlock) :
    List Int :=
  let total := (globalEndTick - globalStartTick) * samplesPerTick
  let out := blocks.foldl (placeBlock globalStartTick samplesPerTick) []
  (out ++ List.replicate (total - out.length) 0).take total

/-! ## Sample environments -/

/-- A small case table: `É` to `é`, the Kelvin sign to `k`, every other rune unchanged. -/
def sampleCaseRanges (r : Char) : Char :=
  if r.toNat = 0xC9 then Char.ofNat 0xE9
  else if r.toNat = 0x212A then Char.ofNat 0x6B
  else r

/-- A core that supports `wav` and `mp3` and fails on the demo `missing.dem`. -/
def sampleEnv : Env String :=
  ⟨sampleCaseRanges, ["wav", "mp3"],
    fun o => if o.DemoPath = "missing.dem" then some "cannot open demo" else none,
    ⟨"/tmp/out", false⟩⟩

/-- A core whose format registry does not list `wav`. -/
def sampleEnvNoWav : Env String :=
  ⟨sampleCaseRanges, ["mp3"], fun _ => none, ⟨"/tmp/out", false⟩⟩

/-! ## Lemmas on the library functions -/

theorem string_eq_empty_iff (s : String) : s = "" ↔ s.data = [] := by
  constructor
  · intro h; subst h; rfl
  · intro h; exact String.ext h

theorem toLower_eq_empty_iff (caseRanges : Char → Char) (s : String) :
    ToLower caseRanges s = "" ↔ s = "" := by
  rw [string_eq_empty_iff, string_eq_empty_iff]
  simp [ToLower]

theorem formatLoop_iff (format : String) (supported : List String) :
    formatLoop format supported = true ↔ format ∈ supported := by
  induction supported with
  | nil => simp [formatLoop]
  | cons sf rest ih =>
    by_cases h : format = sf
    · simp [formatLoop, h]
    · simp [formatLoop, h, ih]

theorem matchAnchored_length :
    ∀ (ks : List RuneClass) (rs : List Char), matchAnchored ks rs = true → rs.length = ks.length
  | [], [], _ => rfl
  | [], _ :: _, h => by simp [matchAnchored] at h
  | _ :: _, [], h => by simp [matchAnchored] at h
  | k :: ks, r :: rs, h => by
    simp only [matchAnchored, Bool.and_eq_true] at h
    simp [matchAnchored_length ks rs h.2]

theorem matchAnchored_accepts :
    ∀ (ks : List RuneClass) (rs : List Char), matchAnchored ks rs = true →
      ∀ r ∈ rs, ∃ k ∈ ks, k.accepts r = true
  | [], [], _ => by simp
  | [], _ :: _, h => by simp [matchAnchored] at h
  | _ :: _, [], _ => by simp
  | k :: ks, r :: rs, h => by
    simp only [matchAnchored, Bool.and_eq_true] at h
    intro x hx
    rcases List.mem_cons.mp hx with rfl | hx
    · exact ⟨k, List.mem_cons_self _ _, h.1⟩
    · obtain ⟨k', hk', hacc⟩ := matchAnchored_accepts ks rs h.2 x hx
      exact ⟨k', List.mem_cons_of_mem _ hk', hacc⟩

theorem message_prefix_ne (a b : String) :
    "unsupported format: " ++ a ≠ "no valid SteamID64s provided, received: " ++ b := by
  intro h
  have h2 := congrArg String.data h
  simp [String.data_append] at h2

theorem steamID64Regex_accepts_digit (k : RuneClass) (hk : k ∈ steamID64Regex) (r : Char)
    (h : k.accepts r = true) : 0x30 ≤ r.toNat ∧ r.toNat ≤ 0x39 := by
  simp only [steamID64Regex, List.replicate, List.cons_append, List.nil_append,
    List.mem_cons, List.mem_singleton] at hk
  have hlit : ∀ c : Char, (0x30 ≤ c.toNat ∧ c.toNat ≤ 0x39) → (RuneClass.lit c).accepts r = true →
      0x30 ≤ r.toNat ∧ r.toNat ≤ 0x39 := by
    intro c hc hacc
    simp only [RuneClass.accepts, beq_iff_eq] at hacc
    subst hacc; exact hc
  have hdig : RuneClass.digit.accepts r = true → 0x30 ≤ r.toNat ∧ r.toNat ≤ 0x39 := by
    intro hacc
    simpa [RuneClass.accepts] using hacc
  rcases hk with rfl | rfl | rfl | rfl | hk
  · exact hlit _ (by decide) h
  · exact hlit _ (by decide) h
  · exact hlit _ (by decide) h
  · exact hlit _ (by decide) h
  · simp only [List.not_mem_nil, or_false, or_self] at hk
    subst hk; exact hdig h

theorem steamID64Regex_head (rs : List Char) (h : matchAnchored steamID64Regex rs = true) :
    rs.take 4 = ['7', '6', '5', '6'] := by
  match rs, h with
  | r1 :: r2 :: r3 :: r4 :: rest, h =>
    simp only [steamID64Regex, List.cons_append, List.nil_append, matchAnchored,
      RuneClass.accepts, Bool.and_eq_true, beq_iff_eq] at h
    obtain ⟨h1, h2, h3, h4, -⟩ := h
    simp [h1, h2, h3, h4]
  | [], h => exact absurd h (by decide)
  | [_], h => simp [steamID64Regex, matchAnchored] at h
  | [_, _], h => simp [steamID64Regex, matchAnchored] at h
  | [_, _, _], h => simp [steamID64Regex, matchAnchored] at h

theorem isSpace_of_digit (r : Char) (h : 0x30 ≤ r.toNat ∧ r.toNat ≤ 0x39) : IsSpace r = false := by
  unfold IsSpace
  have h1 : r.toNat ≤ 0xFF := by omega
  simp only [h1, if_true]
  simp only [Bool.or_eq_false_iff, beq_eq_false_iff_ne, ne_eq]
  refine ⟨⟨⟨⟨⟨⟨⟨?_, ?_⟩, ?_⟩, ?_⟩, ?_⟩, ?_⟩, ?_⟩, ?_⟩ <;> omega

theorem isDigit_of_range (c : Char) (h : 0x30 ≤ c.toNat ∧ c.toNat ≤ 0x39) : c.isDigit = true := by
  have hc := Char.ofNat_toNat c
  generalize c.toNat = n at *
  subst hc
  obtain ⟨h1, h2⟩ := h
  interval_cases n <;> decide

/-- Every SteamID64 is 17 ASCII digits starting with `7656`, without white space. -/
theorem steamID64_shape (id : String) (h : MatchString steamID64Regex id = true) :
    id.length = 17 ∧ (∀ c ∈ id.data, c.isDigit = true) ∧ id.data.take 4 = ['7', '6', '5', '6'] ∧
      (∀ c ∈ id.data, IsSpace c = false) := by
  have hd : ∀ c ∈ id.data, 0x30 ≤ c.toNat ∧ c.toNat ≤ 0x39 := by
    intro c hc
    obtain ⟨k, hk, hacc⟩ := matchAnchored_accepts _ _ h c hc
    exact steamID64Regex_accepts_digit k hk c hacc
  refine ⟨?_, ?_, steamID64Regex_head _ h, ?_⟩
  · have := matchAnchored_length _ _ h
    simpa [steamID64Regex] using this
  · exact fun c hc => isDigit_of_range c (hd c hc)
  · exact fun c hc => isSpace_of_digit c (hd c hc)

theorem splitRunes_mem (sep : Char) :
    ∀ (s piece : List Char), piece ∈ splitRunes sep s → ∀ c ∈ piece, c ∈ s ∧ c ≠ sep := by
  intro s
  induction s with
  | nil =>
    intro piece hp c hc
    simp only [splitRunes, List.mem_singleton] at hp
    subst hp
    simp at hc
  | cons x xs ih =>
    intro piece hp c hc
    by_cases hx : x = sep
    · simp only [splitRunes, hx, if_true, List.mem_cons] at hp
      rcases hp with rfl | hp
      · simp at hc
      · have := ih piece hp c hc
        exact ⟨List.mem_cons_of_mem _ this.1, this.2⟩
    · simp only [splitRunes, hx, if_false] at hp
      cases hs : splitRunes sep xs with
      | nil =>
        rw [hs] at hp
        simp only [List.mem_singleton] at hp
        subst hp
        simp only [List.mem_singleton] at hc
        subst hc
        exact ⟨List.mem_cons_self _ _, hx⟩
      | cons p ps =>
        rw [hs] at hp
        simp only [List.mem_cons] at hp
        rcases hp with rfl | hp
        · rcases List.mem_cons.1 hc with rfl | hc
          · exact ⟨List.mem_cons_self _ _, hx⟩
          · have := ih p (by rw [hs]; exact List.mem_cons_self _ _) c hc
            exact ⟨List.mem_cons_of_mem _ this.1, this.2⟩
        · have := ih piece (by rw [hs]; exact List.mem_cons_of_mem _ hp) c hc
          exact ⟨List.mem_cons_of_mem _ this.1, this.2⟩

theorem trimSpace_of_all_space (s : String) (h : ∀ c ∈ s.data, IsSpace c = true) :
    TrimSpace s = "" := by
  rw [string_eq_empty_iff]
  have h1 : trimLeftSpace s.data = [] := by
    unfold trimLeftSpace
    rw [List.dropWhile_eq_nil_iff]
    exact h
  simp [TrimSpace, h1, trimRightSpace]

theorem ofNat_toNat_small (n : Nat) (h : n < 0xD800) : (Char.ofNat n).toNat = n := by
  have hv : n.isValidChar := Or.inl h
  simp only [Char.ofNat, hv, dite_true, Char.ofNatAux, Char.toNat]
  rfl

theorem lower_upper_ne (c : Char) (h1 : 0x41 ≤ c.toNat) (h2 : c.toNat ≤ 0x5A) :
    Char.ofNat (c.toNat + (0x61 - 0x41)) ≠ c := by
  have hc := Char.ofNat_toNat c
  generalize c.toNat = n at *
  subst hc
  interval_cases n <;> decide

theorem toLower_idem (caseRanges : Char → Char)
    (hidem : ∀ r, toLowerRune caseRanges (toLowerRune caseRanges r) = toLowerRune caseRanges r)
    (s : String) : ToLower caseRanges (ToLower caseRanges s) = ToLower caseRanges s := by
  apply String.ext
  simp [ToLower, hidem]

theorem toLower_no_ascii_upper (caseRanges : Char → Char)
    (hidem : ∀ r, toLowerRune caseRanges (toLowerRune caseRanges r) = toLowerRune caseRanges r)
    (s : String) (c : Char) (hc : c ∈ (ToLower caseRanges s).data) :
    ¬ (0x41 ≤ c.toNat ∧ c.toNat ≤ 0x5A) := by
  simp only [ToLower, List.mem_map] at hc
  obtain ⟨r, -, rfl⟩ := hc
  rintro ⟨h1, h2⟩
  have h := hidem r
  generalize toLowerRune caseRanges r = c at h h1 h2
  have h3 : c.toNat ≤ 0x7F := by omega
  simp only [toLowerRune, h3, if_true, h1, h2, and_self] at h
  exact lower_upper_ne c h1 h2 h

theorem toLowerRune_ascii_idem (caseRanges : Char → Char) (r : Char) (h : r.toNat ≤ 0x7F) :
    toLowerRune caseRanges (toLowerRune caseRanges r) = toLowerRune caseRanges r := by
  by_cases hu : 0x41 ≤ r.toNat ∧ r.toNat ≤ 0x5A
  · have hn : (Char.ofNat (r.toNat + (0x61 - 0x41))).toNat = r.toNat + (0x61 - 0x41) :=
      ofNat_toNat_small _ (by omega)
    have h1 : toLowerRune caseRanges r = Char.ofNat (r.toNat + (0x61 - 0x41)) := by
      simp only [toLowerRune, h, if_true, hu, and_self]
    rw [h1]
    unfold toLowerRune
    rw [hn]
    have h2 : r.toNat + (0x61 - 0x41) ≤ 0x7F := by omega
    have h3 : ¬ (0x41 ≤ r.toNat + (0x61 - 0x41) ∧ r.toNat + (0x61 - 0x41) ≤ 0x5A) := by omega
    simp only [h2, if_true, h3, if_false]
  · have h1 : toLowerRune caseRanges r = r := by
      simp only [toLowerRune, h, if_true, hu, if_false]
    rw [h1, h1]

theorem sampleCaseRanges_idem (r : Char) :
    toLowerRune sampleCaseRanges (toLowerRune sampleCaseRanges r) =
      toLowerRune sampleCaseRanges r := by
  by_cases h : r.toNat ≤ 0x7F
  · exact toLowerRune_ascii_idem _ r h
  · have h1 : toLowerRune sampleCaseRanges r = sampleCaseRanges r := by
      simp only [toLowerRune, h, if_false]
    rw [h1]
    by_cases h2 : r.toNat = 0xC9
    · have hv : sampleCaseRanges r = Char.ofNat 0xE9 := by
        simp only [sampleCaseRanges, h2, if_true]
      rw [hv]; decide
    · by_cases h3 : r.toNat = 0x212A
      · have hv : sampleCaseRanges r = Char.ofNat 0x6B := by
          simp [sampleCaseRanges, h3]
        rw [hv]; decide
      · have hv : sampleCaseRanges r = r := by
          simp only [sampleCaseRanges, h2, h3, if_false]
        rw [hv, h1, hv]

/-! ## Lemmas on the player filter -/

theorem playerLoop_eq (tokens : List String) :
    ∀ playerIDs invalidIDs : List String,
      playerLoop tokens (playerIDs, invalidIDs) =
        (playerIDs ++ ((tokens.map TrimSpace).filter (fun t => t ≠ "")).filter
            (fun t => MatchString steamID64Regex t),
         invalidIDs ++ ((tokens.map TrimSpace).filter (fun t => t ≠ "")).filter
            (fun t => !MatchString steamID64Regex t)) := by
  induction tokens with
  | nil => intro p q; simp [playerLoop]
  | cons tok rest ih =>
    intro p q
    by_cases he : TrimSpace tok = ""
    · simp [playerLoop, he, ih]
    · by_cases hm : MatchString steamID64Regex (TrimSpace tok) = true
      · simp [playerLoop, he, hm, ih]
      · simp only [Bool.not_eq_true] at hm
        simp [playerLoop, he, hm, ih]

theorem specTokens_empty : specTokens "" = [] := rfl

theorem parsePlayers_eq (playerFilter : String) :
    parsePlayers playerFilter = (specPlayerIDs playerFilter, specInvalidIDs playerFilter) := by
  unfold parsePlayers
  by_cases h : playerFilter = ""
  · subst h
    simp [specPlayerIDs, specInvalidIDs, specTokens_empty]
  · simp only [ne_eq, h, not_false_eq_true, if_true]
    rw [playerLoop_eq]
    simp [specPlayerIDs, specInvalidIDs, specTokens]

theorem matchString_empty : MatchString steamID64Regex "" = false := rfl

theorem mem_specTokens (playerFilter t : String) :
    t ∈ specTokens playerFilter ↔ (∃ tok ∈ Split playerFilter ',', TrimSpace tok = t) ∧ t ≠ "" := by
  simp [specTokens, List.mem_filter]

theorem specPlayerIDs_match (playerFilter id : String) (h : id ∈ specPlayerIDs playerFilter) :
    MatchString steamID64Regex id = true := by
  unfold specPlayerIDs at h
  exact (List.mem_filter.1 h).2

theorem specPlayerIDs_eq_nil_iff (playerFilter : String) :
    specPlayerIDs playerFilter = [] ↔
      ∀ t ∈ Split playerFilter ',', MatchString steamID64Regex (TrimSpace t) = false := by
  unfold specPlayerIDs
  rw [List.filter_eq_nil_iff]
  constructor
  · intro h t ht
    by_cases he : TrimSpace t = ""
    · rw [he]; exact matchString_empty
    · have := h (TrimSpace t) ((mem_specTokens _ _).2 ⟨⟨t, ht, rfl⟩, he⟩)
      simpa using this
  · intro h t ht
    obtain ⟨⟨tok, htok, rfl⟩, -⟩ := (mem_specTokens _ _).1 ht
    simp [h tok htok]

/-- The test of line 60 (inside `if playerFilter != ""`) in the words of the specification. -/
theorem rejected_iff (playerFilter : String) :
    (playerFilter ≠ "" ∧ (parsePlayers playerFilter).1.length = 0 ∧
      (parsePlayers playerFilter).2.length > 0) ↔ PlayersRejected playerFilter := by
  rw [parsePlayers_eq]
  simp only [List.length_eq_zero, gt_iff_lt, List.length_pos, PlayersRejected]
  rw [specPlayerIDs_eq_nil_iff]
  constructor
  · rintro ⟨h1, h2, h3⟩
    refine ⟨h1, ?_, h2⟩
    obtain ⟨t, ht⟩ := List.exists_mem_of_ne_nil _ h3
    have ht2 := (List.mem_filter.1 ht).1
    obtain ⟨⟨tok, htok, rfl⟩, hne⟩ := (mem_specTokens _ _).1 ht2
    exact ⟨tok, htok, hne⟩
  · rintro ⟨h1, ⟨tok, htok, hne⟩, h3⟩
    refine ⟨h1, h3, ?_⟩
    apply List.ne_nil_of_mem (a := TrimSpace tok)
    unfold specInvalidIDs
    rw [List.mem_filter]
    exact ⟨(mem_specTokens _ _).2 ⟨⟨tok, htok, rfl⟩, hne⟩, by simp [h3 tok htok]⟩

/-- A player filter made of commas and white space only has no non-empty token. -/
theorem specTokens_of_blank (playerFilter : String)
    (h : ∀ c ∈ playerFilter.data, c = ',' ∨ IsSpace c = true) : specTokens playerFilter = [] := by
  unfold specTokens
  rw [List.filter_eq_nil_iff]
  intro t ht
  simp only [Split, List.map_map, List.mem_map, Function.comp] at ht
  obtain ⟨piece, hpiece, rfl⟩ := ht
  have : TrimSpace ⟨piece⟩ = "" := by
    apply trimSpace_of_all_space
    intro c hc
    have hm := splitRunes_mem ',' playerFilter.data piece hpiece c hc
    rcases h c hm.1 with hcomma | hsp
    · exact absurd hcomma hm.2
    · exact hsp
  simp [this]

theorem not_rejected_of_no_tokens (playerFilter : String) (h : specTokens playerFilter = []) :
    ¬ PlayersRejected playerFilter := by
  rintro ⟨-, ⟨tok, htok, hne⟩, -⟩
  have : TrimSpace tok ∈ specTokens playerFilter := (mem_specTokens _ _).2 ⟨⟨tok, htok, rfl⟩, hne⟩
  rw [h] at this
  simp at this

/-! ## The three ways through `RunE` -/

theorem RunE_players_rejected {E : Type} (env : Env E) (playerFilter formatOption demoPath : String)
    (h : PlayersRejected playerFilter) :
    RunE env playerFilter formatOption demoPath =
      ⟨some (.errorf ("no valid SteamID64s provided, received: "
          ++ Join (specInvalidIDs playerFilter) ", ")), [], specInvalidIDs playerFilter, []⟩ := by
  unfold RunE
  simp only [if_pos ((rejected_iff playerFilter).2 h)]
  rw [parsePlayers_eq]

theorem RunE_format_rejected {E : Type} (env : Env E) (playerFilter formatOption demoPath : String)
    (hp : ¬ PlayersRejected playerFilter)
    (hf : FormatRejected env.caseRanges env.GetSupportedFormats formatOption) :
    RunE env playerFilter formatOption demoPath =
      ⟨some (.errorf ("unsupported format: " ++ ToLower env.caseRanges formatOption
          ++ " (supported formats: " ++ Join env.GetSupportedFormats ", " ++ ")")),
        [], specInvalidIDs playerFilter, []⟩ := by
  unfold RunE
  simp only [if_neg (fun h => hp ((rejected_iff playerFilter).1 h))]
  have hv : formatLoop (ToLower env.caseRanges formatOption) env.GetSupportedFormats = false := by
    rw [Bool.eq_false_iff]
    exact fun h => hf.2 ((formatLoop_iff _ _).1 h)
  simp only [if_neg hf.1, hv, Bool.not_false, if_true]
  rw [parsePlayers_eq]

theorem RunE_accepted {E : Type} (env : Env E) (playerFilter formatOption demoPath : String)
    (hp : ¬ PlayersRejected playerFilter)
    (hf : ¬ FormatRejected env.caseRanges env.GetSupportedFormats formatOption) :
    RunE env playerFilter formatOption demoPath =
      match env.ExtractVoiceData (specOptions env playerFilter formatOption demoPath) with
      | some e => ⟨some (.core e), [specOptions env playerFilter formatOption demoPath],
          specInvalidIDs playerFilter, []⟩
      | none => ⟨none, [specOptions env playerFilter formatOption demoPath],
          specInvalidIDs playerFilter,
          [successMessage env.Opts.AbsOutputDir (specPlayerIDs playerFilter)
            (specOptions env playerFilter formatOption demoPath).Format]⟩ := by
  unfold RunE
  simp only [if_neg (fun h => hp ((rejected_iff playerFilter).1 h))]
  have hv : (if ToLower env.caseRanges formatOption = "" then true
      else formatLoop (ToLower env.caseRanges formatOption) env.GetSupportedFormats) = true := by
    by_cases he : ToLower env.caseRanges formatOption = ""
    · simp [he]
    · simp only [if_neg he]
      rw [formatLoop_iff]
      by_contra hn
      exact hf ⟨he, hn⟩
  simp only [hv, Bool.not_true, Bool.false_eq_true, if_false]
  rw [parsePlayers_eq]
  rfl

theorem calls_accepted {E : Type} (env : Env E) (playerFilter formatOption demoPath : String)
    (hp : ¬ PlayersRejected playerFilter)
    (hf : ¬ FormatRejected env.caseRanges env.GetSupportedFormats formatOption) :
    (RunE env playerFilter formatOption demoPath).calls =
      [specOptions env playerFilter formatOption demoPath] := by
  rw [RunE_accepted env playerFilter formatOption demoPath hp hf]
  cases env.ExtractVoiceData (specOptions env playerFilter formatOption demoPath) <;> rfl

theorem err_accepted {E : Type} (env : Env E) (playerFilter formatOption demoPath : String)
    (hp : ¬ PlayersRejected playerFilter)
    (hf : ¬ FormatRejected env.caseRanges env.GetSupportedFormats formatOption) :
    (RunE env playerFilter formatOption demoPath).err =
      (env.ExtractVoiceData (specOptions env playerFilter formatOption demoPath)).map
        CmdError.core := by
  rw [RunE_accepted env playerFilter formatOption demoPath hp hf]
  cases env.ExtractVoiceData (specOptions env playerFilter formatOption demoPath) <;> rfl

theorem warned_eq {E : Type} (env : Env E) (playerFilter formatOption demoPath : String) :
    (RunE env playerFilter formatOption demoPath).warned = specInvalidIDs playerFilter := by
  by_cases hp : PlayersRejected playerFilter
  · rw [RunE_players_rejected env playerFilter formatOption demoPath hp]
  · by_cases hf : FormatRejected env.caseRanges env.GetSupportedFormats formatOption
    · rw [RunE_format_rejected env playerFilter formatOption demoPath hp hf]
    · rw [RunE_accepted env playerFilter formatOption demoPath hp hf]
      cases env.ExtractVoiceData (specOptions env playerFilter formatOption demoPath) <;> rfl

theorem mem_calls {E : Type} (env : Env E) (playerFilter formatOption demoPath : String)
    (o : ExtractOptions) (ho : o ∈ (RunE env playerFilter formatOption demoPath).calls) :
    ¬ PlayersRejected playerFilter ∧
      ¬ FormatRejected env.caseRanges env.GetSupportedFormats formatOption ∧
      o = specOptions env playerFilter formatOption demoPath := by
  by_cases hp : PlayersRejected playerFilter
  · rw [RunE_players_rejected env playerFilter formatOption demoPath hp] at ho
    simp at ho
  · by_cases hf : FormatRejected env.caseRanges env.GetSupportedFormats formatOption
    · rw [RunE_format_rejected env playerFilter formatOption demoPath hp hf] at ho
      simp at ho
    · rw [calls_accepted env playerFilter formatOption demoPath hp hf] at ho
      exact ⟨hp, hf, List.mem_singleton.1 ho⟩

theorem noValidIDsError_iff {E : Type} (env : Env E) (playerFilter formatOption demoPath : String) :
    IsNoValidIDsError (RunE env playerFilter formatOption demoPath).err ↔
      PlayersRejected playerFilter := by
  constructor
  · rintro ⟨rest, h⟩
    by_contra hp
    by_cases hf : FormatRejected env.caseRanges env.GetSupportedFormats formatOption
    · rw [RunE_format_rejected env playerFilter formatOption demoPath hp hf] at h
      simp only [Option.some.injEq, CmdError.errorf.injEq, String.append_assoc] at h
      exact message_prefix_ne _ _ h
    · rw [err_accepted env playerFilter formatOption demoPath hp hf] at h
      cases hx : env.ExtractVoiceData (specOptions env playerFilter formatOption demoPath) <;>
        simp [hx] at h
  · intro hp
    rw [RunE_players_rejected env playerFilter formatOption demoPath hp]
    exact ⟨_, rfl⟩

theorem unsupportedFormatError_iff {E : Type} (env : Env E)
    (playerFilter formatOption demoPath : String) :
    IsUnsupportedFormatError (RunE env playerFilter formatOption demoPath).err ↔
      (¬ PlayersRejected playerFilter ∧
        FormatRejected env.caseRanges env.GetSupportedFormats formatOption) := by
  constructor
  · rintro ⟨rest, h⟩
    by_cases hp : PlayersRejected playerFilter
    · rw [RunE_players_rejected env playerFilter formatOption demoPath hp] at h
      simp only [Option.some.injEq, CmdError.errorf.injEq] at h
      exact absurd h.symm (message_prefix_ne _ _)
    · refine ⟨hp, ?_⟩
      by_contra hf
      rw [err_accepted env playerFilter formatOption demoPath hp hf] at h
      cases hx : env.ExtractVoiceData (specOptions env playerFilter formatOption demoPath) <;>
        simp [hx] at h
  · rintro ⟨hp, hf⟩
    rw [RunE_format_rejected env playerFilter formatOption demoPath hp hf]
    refine ⟨ToLower env.caseRanges formatOption ++ (" (supported formats: "
      ++ (Join env.GetSupportedFormats ", " ++ ")")), ?_⟩
    simp only [String.append_assoc]

/-! ## Lemmas on the mixer -/

theorem placeBlock_length (globalStartTick samplesPerTick : Nat) (out : List Int) (b : PCMBlock) :
    (placeBlock globalStartTick samplesPerTick out b).length =
      (b.startTick - globalStartTick) * samplesPerTick +
        (b.samples.length - (globalStartTick - b.startTick) * samplesPerTick) := by
  simp only [placeBlock, List.length_append, List.length_replicate, List.length_take,
    List.length_drop]
  omega

/-- A block that starts inside the window is written whole, at its own sample offset. -/
theorem placeBlock_of_start_le (globalStartTick samplesPerTick : Nat) (out : List Int)
    (b : PCMBlock) (h : globalStartTick ≤ b.startTick) :
    ∃ before : List Int,
      before.length = (b.startTick - globalStartTick) * samplesPerTick ∧
      placeBlock globalStartTick samplesPerTick out b = before ++ b.samples := by
  refine ⟨out.take ((b.startTick - globalStartTick) * samplesPerTick) ++
    List.replicate ((b.startTick - globalStartTick) * samplesPerTick -
      (out.take ((b.startTick - globalStartTick) * samplesPerTick)).length) 0, ?_, ?_⟩
  · simp only [List.length_append, List.length_replicate, List.length_take]
    omega
  · have h0 : globalStartTick - b.startTick = 0 := by omega
    simp only [placeBlock, h0, Nat.zero_mul, List.drop_zero]

theorem drop_take_window (before samples pad : List Int) (total : Nat)
    (h : before.length + samples.length ≤ total) :
    (((before ++ samples ++ pad).take total).drop before.length).take samples.length =
      samples := by
  have h1 : (before ++ samples ++ pad).take total =
      before ++ (samples ++ pad.take (total - before.length - samples.length)) := by
    rw [List.append_assoc, List.take_append_eq_append_take,
      List.take_of_length_le (show before.length ≤ total by omega),
      List.take_append_eq_append_take,
      List.take_of_length_le (show samples.length ≤ total - before.length by omega)]
  rw [h1, List.drop_left, List.take_left]

theorem mixTimeline_length (globalStartTick globalEndTick samplesPerTick : Nat)
    (blocks : List PCMBlock) :
    (mixTimeline globalStartTick globalEndTick samplesPerTick blocks).length =
      (globalEndTick - globalStartTick) * samplesPerTick := by
  simp only [mixTimeline, List.length_take, List.length_append, List.length_replicate]
  omega

/-! ## The claims -/

/-- Claim C1: whenever the extract command invokes `ExtractVoiceData`, every element of
`options.PlayerIDs` matches `^7656\d{13}$`: it is 17 runes long, all of them ASCII decimal
digits, its first four runes are `7656`, and it holds no white space (so no newline). -/
theorem playerIDs_are_steamID64 {E : Type} (env : Env E)
    (playerFilter formatOption demoPath : String) (o : ExtractOptions)
    (ho : o ∈ (RunE env playerFilter formatOption demoPath).calls)
    (id : String) (hid : id ∈ o.PlayerIDs) :
    MatchString steamID64Regex id = true ∧ id.length = 17 ∧
      (∀ c ∈ id.data, c.isDigit = true) ∧ id.data.take 4 = ['7', '6', '5', '6'] ∧
      (∀ c ∈ id.data, IsSpace c = false) := by
  obtain ⟨-, -, rfl⟩ := mem_calls env playerFilter formatOption demoPath o ho
  have hm := specPlayerIDs_match playerFilter id hid
  exact ⟨hm, steamID64_shape id hm⟩

theorem playerIDs_are_steamID64_witness :
    (⟨"match.dem", "/tmp/out", false, ["76561198000000001"], "wav"⟩ : ExtractOptions) ∈
        (RunE sampleEnv " 76561198000000001 ,abc" "WAV" "match.dem").calls ∧
      "76561198000000001" ∈ ["76561198000000001"] ∧
      (MatchString steamID64Regex "76561198000000001" = true ∧
        "76561198000000001".length = 17 ∧
        (∀ c ∈ "76561198000000001".data, c.isDigit = true) ∧
        "76561198000000001".data.take 4 = ['7', '6', '5', '6'] ∧
        (∀ c ∈ "76561198000000001".data, IsSpace c = false)) :=
  ⟨by decide, by decide,
    playerIDs_are_steamID64 sampleEnv " 76561198000000001 ,abc" "WAV" "match.dem"
      ⟨"match.dem", "/tmp/out", false, ["76561198000000001"], "wav"⟩ (by decide)
      "76561198000000001" (by decide)⟩

/-- Claim C2, as stated, fails: with an empty `--format` and a registry that does not list
`wav`, the core is invoked with the format `wav`, which is not a supported format. -/
theorem format_in_registry_counterexample :
    ¬ ∀ o ∈ (RunE sampleEnvNoWav "" "" "match.dem").calls,
        o.Format ∈ sampleEnvNoWav.GetSupportedFormats := by
  decide

/-- Claim C2 (amended): whenever the extract command invokes `ExtractVoiceData`, either the
`--format` value is non-empty and `options.Format`, its lower-casing, is an element of
`GetSupportedFormats()`, or the `--format` value is empty and `options.Format` is the default
`wav`, which is not looked up in the registry. -/
theorem format_supported_or_default {E : Type} (env : Env E)
    (playerFilter formatOption demoPath : String) (o : ExtractOptions)
    (ho : o ∈ (RunE env playerFilter formatOption demoPath).calls) :
    (formatOption ≠ "" ∧ o.Format = ToLower env.caseRanges formatOption ∧
        o.Format ∈ env.GetSupportedFormats) ∨
      (formatOption = "" ∧ o.Format = "wav") := by
  obtain ⟨-, hf, rfl⟩ := mem_calls env playerFilter formatOption demoPath o ho
  by_cases he : ToLower env.caseRanges formatOption = ""
  · right
    exact ⟨(toLower_eq_empty_iff _ _).1 he, by simp [specOptions, he]⟩
  · left
    refine ⟨fun h => he ((toLower_eq_empty_iff _ _).2 h), by simp [specOptions, he], ?_⟩
    simp only [specOptions, he, if_false]
    by_contra hn
    exact hf ⟨he, hn⟩

theorem format_supported_or_default_witness :
    (⟨"match.dem", "/tmp/out", false, [], "mp3"⟩ : ExtractOptions) ∈
        (RunE sampleEnv "" "MP3" "match.dem").calls ∧
      (("MP3" ≠ "" ∧ "mp3" = ToLower sampleEnv.caseRanges "MP3" ∧
          "mp3" ∈ sampleEnv.GetSupportedFormats) ∨
        ("MP3" = "" ∧ "mp3" = "wav")) :=
  ⟨by decide,
    format_supported_or_default sampleEnv "" "MP3" "match.dem"
      ⟨"match.dem", "/tmp/out", false, [], "mp3"⟩ (by decide)⟩

/-- Claim C3: the extract command returns the error `no valid SteamID64s provided,
received: ...` if and only if the `--players` value is non-empty, some comma-separated token is
non-empty after trimming, and no trimmed token matches `^7656\d{13}$`; the error then lists the
skipped tokens and `ExtractVoiceData` is never invoked. A filter with at least one valid ID does
not fail this way, whatever else it holds. -/
theorem no_valid_ids_error_iff {E : Type} (env : Env E)
    (playerFilter formatOption demoPath : String) :
    (IsNoValidIDsError (RunE env playerFilter formatOption demoPath).err ↔
        (playerFilter ≠ "" ∧ (∃ t ∈ Split playerFilter ',', TrimSpace t ≠ "") ∧
          ∀ t ∈ Split playerFilter ',', MatchString steamID64Regex (TrimSpace t) = false)) ∧
      (IsNoValidIDsError (RunE env playerFilter formatOption demoPath).err →
        (RunE env playerFilter formatOption demoPath).err =
            some (.errorf ("no valid SteamID64s provided, received: "
              ++ Join (specInvalidIDs playerFilter) ", ")) ∧
          (RunE env playerFilter formatOption demoPath).calls = []) ∧
      ((∃ t ∈ Split playerFilter ',', MatchString steamID64Regex (TrimSpace t) = true) →
        ¬ IsNoValidIDsError (RunE env playerFilter formatOption demoPath).err) := by
  refine ⟨noValidIDsError_iff env playerFilter formatOption demoPath, ?_, ?_⟩
  · intro h
    have hp := (noValidIDsError_iff env playerFilter formatOption demoPath).1 h
    rw [RunE_players_rejected env playerFilter formatOption demoPath hp]
    exact ⟨rfl, rfl⟩
  · rintro ⟨t, ht, hm⟩ h
    have hp := (noValidIDsError_iff env playerFilter formatOption demoPath).1 h
    have := hp.2.2 t ht
    rw [hm] at this
    exact Bool.noConfusion this

theorem no_valid_ids_error_iff_witness :
    (RunE sampleEnv "abc, 7656119800000000x" "wav" "match.dem").err =
        some (.errorf ("no valid SteamID64s provided, received: "
          ++ Join (specInvalidIDs "abc, 7656119800000000x") ", ")) ∧
      (RunE sampleEnv "abc, 7656119800000000x" "wav" "match.dem").calls = [] ∧
      ¬ IsNoValidIDsError (RunE sampleEnv "abc,76561198000000001" "wav" "match.dem").err :=
  have h := no_valid_ids_error_iff sampleEnv "abc, 7656119800000000x" "wav" "match.dem"
  have h2 := no_valid_ids_error_iff sampleEnv "abc,76561198000000001" "wav" "match.dem"
  ⟨(h.2.1 (h.1.2 (by decide))).1, (h.2.1 (h.1.2 (by decide))).2,
    h2.2.2 ⟨"76561198000000001", by decide, by decide⟩⟩

/-- Claim C4: when the player-filter validation did not fail, the extract command returns the
error `unsupported format: ...` if and only if the lower-cased `--format` value is non-empty
and is not an element of `GetSupportedFormats()`; `ExtractVoiceData` is then never invoked. -/
theorem unsupported_format_error_iff {E : Type} (env : Env E)
    (playerFilter formatOption demoPath : String)
    (hp : ¬ IsNoValidIDsError (RunE env playerFilter formatOption demoPath).err) :
    (IsUnsupportedFormatError (RunE env playerFilter formatOption demoPath).err ↔
        (ToLower env.caseRanges formatOption ≠ "" ∧
          ToLower env.caseRanges formatOption ∉ env.GetSupportedFormats)) ∧
      (IsUnsupportedFormatError (RunE env playerFilter formatOption demoPath).err →
        (RunE env playerFilter formatOption demoPath).err =
            some (.errorf ("unsupported format: " ++ ToLower env.caseRanges formatOption
              ++ " (supported formats: " ++ Join env.GetSupportedFormats ", " ++ ")")) ∧
          (RunE env playerFilter formatOption demoPath).calls = []) := by
  have hp2 : ¬ PlayersRejected playerFilter :=
    fun h => hp ((noValidIDsError_iff env playerFilter formatOption demoPath).2 h)
  have hiff := unsupportedFormatError_iff env playerFilter formatOption demoPath
  constructor
  · rw [hiff]
    exact ⟨fun h => h.2, fun h => ⟨hp2, h⟩⟩
  · intro h
    rw [RunE_format_rejected env playerFilter formatOption demoPath hp2 (hiff.1 h).2]
    exact ⟨rfl, rfl⟩

theorem unsupported_format_error_iff_witness :
    ¬ IsNoValidIDsError (RunE sampleEnv "76561198000000001" "OGG" "match.dem").err ∧
      (RunE sampleEnv "76561198000000001" "OGG" "match.dem").err =
        some (.errorf ("unsupported format: " ++ ToLower sampleEnv.caseRanges "OGG"
          ++ " (supported formats: " ++ Join sampleEnv.GetSupportedFormats ", " ++ ")")) ∧
      (RunE sampleEnv "76561198000000001" "OGG" "match.dem").calls = [] :=
  have hp : ¬ IsNoValidIDsError (RunE sampleEnv "76561198000000001" "OGG" "match.dem").err :=
    fun h => absurd ((noValidIDsError_iff sampleEnv _ _ _).1 h) (by decide)
  have h := unsupported_format_error_iff sampleEnv "76561198000000001" "OGG" "match.dem" hp
  ⟨hp, h.2 (h.1.2 (by decide))⟩

/-- Claim C5: when neither validation fails, the extract command invokes `ExtractVoiceData`
exactly once, with the options made of the positional argument, the global output directory
and overwrite flag, the validated player IDs and the validated format; the command returns
exactly what that call returned: `nil` if and only if the call returned `nil`, and otherwise the
very error of the call. -/
theorem invokes_core_once_and_returns_its_error {E : Type} (env : Env E)
    (playerFilter formatOption demoPath : String)
    (hp : ¬ IsNoValidIDsError (RunE env playerFilter formatOption demoPath).err)
    (hf : ¬ IsUnsupportedFormatError (RunE env playerFilter formatOption demoPath).err) :
    ∃ options : ExtractOptions,
      options.DemoPath = demoPath ∧
      options.OutputDir = env.Opts.AbsOutputDir ∧
      options.ForceOverwrite = env.Opts.ForceOverwrite ∧
      options.PlayerIDs = (parsePlayers playerFilter).1 ∧
      options.PlayerIDs = specPlayerIDs playerFilter ∧
      options.Format = (if ToLower env.caseRanges formatOption = "" then "wav"
        else ToLower env.caseRanges formatOption) ∧
      (RunE env playerFilter formatOption demoPath).calls = [options] ∧
      (RunE env playerFilter formatOption demoPath).err =
        (env.ExtractVoiceData options).map CmdError.core ∧
      ((RunE env playerFilter formatOption demoPath).err = none ↔
        env.ExtractVoiceData options = none) ∧
      (∀ e : E, env.ExtractVoiceData options = some e →
        (RunE env playerFilter formatOption demoPath).err = some (.core e)) := by
  have hp2 : ¬ PlayersRejected playerFilter :=
    fun h => hp ((noValidIDsError_iff env playerFilter formatOption demoPath).2 h)
  have hf2 : ¬ FormatRejected env.caseRanges env.GetSupportedFormats formatOption :=
    fun h => hf ((unsupportedFormatError_iff env playerFilter formatOption demoPath).2 ⟨hp2, h⟩)
  have herr := err_accepted env playerFilter formatOption demoPath hp2 hf2
  refine ⟨specOptions env playerFilter formatOption demoPath, rfl, rfl, rfl, ?_, rfl, rfl,
    calls_accepted env playerFilter formatOption demoPath hp2 hf2, herr, ?_, ?_⟩
  · rw [parsePlayers_eq]; rfl
  · rw [herr]; simp
  · intro e he
    rw [herr, he]; rfl

theorem invokes_core_once_and_returns_its_error_witness :
    ¬ IsNoValidIDsError (RunE sampleEnv "76561198000000001,x" "Mp3" "missing.dem").err ∧
      ¬ IsUnsupportedFormatError (RunE sampleEnv "76561198000000001,x" "Mp3" "missing.dem").err ∧
      ∃ options : ExtractOptions,
        options.DemoPath = "missing.dem" ∧
        options.OutputDir = sampleEnv.Opts.AbsOutputDir ∧
        options.ForceOverwrite = sampleEnv.Opts.ForceOverwrite ∧
        options.PlayerIDs = (parsePlayers "76561198000000001,x").1 ∧
        options.PlayerIDs = specPlayerIDs "76561198000000001,x" ∧
        options.Format = (if ToLower sampleEnv.caseRanges "Mp3" = "" then "wav"
          else ToLower sampleEnv.caseRanges "Mp3") ∧
        (RunE sampleEnv "76561198000000001,x" "Mp3" "missing.dem").calls = [options] ∧
        (RunE sampleEnv "76561198000000001,x" "Mp3" "missing.dem").err =
          (sampleEnv.ExtractVoiceData options).map CmdError.core ∧
        ((RunE sampleEnv "76561198000000001,x" "Mp3" "missing.dem").err = none ↔
          sampleEnv.ExtractVoiceData options = none) ∧
        (∀ e : String, sampleEnv.ExtractVoiceData options = some e →
          (RunE sampleEnv "76561198000000001,x" "Mp3" "missing.dem").err = some (.core e)) :=
  have hp : ¬ IsNoValidIDsError (RunE sampleEnv "76561198000000001,x" "Mp3" "missing.dem").err :=
    fun h => absurd ((noValidIDsError_iff sampleEnv _ _ _).1 h) (by decide)
  have hf : ¬ IsUnsupportedFormatError
      (RunE sampleEnv "76561198000000001,x" "Mp3" "missing.dem").err :=
    fun h => absurd ((unsupportedFormatError_iff sampleEnv _ _ _).1 h).2 (by decide)
  ⟨hp, hf,
    invokes_core_once_and_returns_its_error sampleEnv "76561198000000001,x" "Mp3" "missing.dem"
      hp hf⟩

/-- Claim C6: the `Format` handed to `ExtractVoiceData` is lower case: it equals its own
lower-casing and holds no letter `A`-`Z`, for every case table on which lower-casing a rune
twice is the same as lower-casing it once; `WAV`, `Wav` and `wav` all reach the core as `wav`. -/
theorem format_is_lowercase {E : Type} (env : Env E)
    (hidem : ∀ r, toLowerRune env.caseRanges (toLowerRune env.caseRanges r) =
      toLowerRune env.caseRanges r)
    (playerFilter formatOption demoPath : String) (o : ExtractOptions)
    (ho : o ∈ (RunE env playerFilter formatOption demoPath).calls) :
    ToLower env.caseRanges o.Format = o.Format ∧
      (∀ c ∈ o.Format.data, ¬ (0x41 ≤ c.toNat ∧ c.toNat ≤ 0x5A)) ∧
      (∀ v ∈ ["WAV", "Wav", "wav"], ∀ o2 ∈ (RunE env playerFilter v demoPath).calls,
        o2.Format = "wav") := by
  obtain ⟨-, -, rfl⟩ := mem_calls env playerFilter formatOption demoPath o ho
  refine ⟨?_, ?_, ?_⟩
  · by_cases he : ToLower env.caseRanges formatOption = ""
    · simp only [specOptions, he, if_true]; rfl
    · simp only [specOptions, he, if_false]
      exact toLower_idem _ hidem _
  · by_cases he : ToLower env.caseRanges formatOption = ""
    · simp only [specOptions, he, if_true]; decide
    · simp only [specOptions, he, if_false]
      exact fun c hc => toLower_no_ascii_upper _ hidem _ c hc
  · intro v hv o2 ho2
    obtain ⟨-, -, rfl⟩ := mem_calls env playerFilter v demoPath o2 ho2
    simp only [List.mem_cons, List.mem_singleton, List.not_mem_nil, or_false] at hv
    rcases hv with rfl | rfl | rfl <;> rfl

theorem format_is_lowercase_witness :
    (⟨"match.dem", "/tmp/out", false, [], "mp3"⟩ : ExtractOptions) ∈
        (RunE sampleEnv "" "Mp3" "match.dem").calls ∧
      ToLower sampleEnv.caseRanges "mp3" = "mp3" ∧
      (∀ c ∈ "mp3".data, ¬ (0x41 ≤ c.toNat ∧ c.toNat ≤ 0x5A)) ∧
      (∀ v ∈ ["WAV", "Wav", "wav"], ∀ o2 ∈ (RunE sampleEnv "" v "match.dem").calls,
        o2.Format = "wav") :=
  ⟨by decide,
    format_is_lowercase sampleEnv sampleCaseRanges_idem "" "Mp3" "match.dem"
      ⟨"match.dem", "/tmp/out", false, [], "mp3"⟩ (by decide)⟩

/-- Claim C7: for every sequence of PCM blocks of a player and every global tick window, the
`DenseAudioBuffer` produced by the Timeline Mixer/Padder has
`(globalEndTick − globalStartTick) × samplesPerTick` samples, whatever the blocks are (none at
all, overlapping ones), so the buffers of two players of one demo have the same length. The
buffer is not blind to the blocks: without blocks it is all silence, and the last block of the
walk, when it lies inside the window, is found whole at its own sample offset. -/
theorem dense_buffer_length (globalStartTick globalEndTick samplesPerTick : Nat)
    (blocks other : List PCMBlock) :
    (mixTimeline globalStartTick globalEndTick samplesPerTick blocks).length =
        (globalEndTick - globalStartTick) * samplesPerTick ∧
      (mixTimeline globalStartTick globalEndTick samplesPerTick blocks).length =
        (mixTimeline globalStartTick globalEndTick samplesPerTick other).length ∧
      mixTimeline globalStartTick globalEndTick samplesPerTick [] =
        List.replicate ((globalEndTick - globalStartTick) * samplesPerTick) 0 ∧
      (∀ (earlier : List PCMBlock) (b : PCMBlock), blocks = earlier ++ [b] →
        globalStartTick ≤ b.startTick →
        (b.startTick - globalStartTick) * samplesPerTick + b.samples.length ≤
          (globalEndTick - globalStartTick) * samplesPerTick →
        ((mixTimeline globalStartTick globalEndTick samplesPerTick blocks).drop
          ((b.startTick - globalStartTick) * samplesPerTick)).take b.samples.length =
            b.samples) := by
  refine ⟨mixTimeline_length _ _ _ _, ?_, ?_, ?_⟩
  · rw [mixTimeline_length, mixTimeline_length]
  · simp [mixTimeline]
  · intro earlier b hb hstart hend
    subst hb
    obtain ⟨before, hlen, hplace⟩ := placeBlock_of_start_le globalStartTick samplesPerTick
      (earlier.foldl (placeBlock globalStartTick samplesPerTick) []) b hstart
    simp only [mixTimeline, List.foldl_append, List.foldl_cons, List.foldl_nil, hplace]
    rw [← hlen]
    exact drop_take_window before b.samples _ _ (by rw [hlen]; exact hend)

theorem dense_buffer_length_witness :
    mixTimeline 0 10 4 [⟨2, 48000, 1, [1, 2, 3, 4, 5, 6, 7, 8, 9]⟩, ⟨3, 48000, 1, [7, 7]⟩,
        ⟨9, 48000, 1, [5, 5, 5, 5, 5, 5, 5, 5]⟩] =
      [0, 0, 0, 0, 0, 0, 0, 0, 1, 2, 3, 4, 7, 7, 0, 0, 0, 0, 0, 0,
        0, 0, 0, 0, 0, 0, 0, 0, 0, 0, 0, 0, 0, 0, 0, 0, 5, 5, 5, 5] ∧
      (mixTimeline 0 10 4 [⟨2, 48000, 1, [1, 2, 3, 4, 5, 6, 7, 8, 9]⟩, ⟨3, 48000, 1, [7, 7]⟩,
        ⟨9, 48000, 1, [5, 5, 5, 5, 5, 5, 5, 5]⟩]).length = (10 - 0) * 4 ∧
      ((mixTimeline 0 10 4 [⟨2, 48000, 1, [1, 2, 3, 4, 5, 6, 7, 8, 9]⟩,
        ⟨3, 48000, 1, [7, 7]⟩]).drop ((3 - 0) * 4)).take 2 = [7, 7] :=
  ⟨by decide,
    (dense_buffer_length 0 10 4 [⟨2, 48000, 1, [1, 2, 3, 4, 5, 6, 7, 8, 9]⟩, ⟨3, 48000, 1, [7, 7]⟩,
      ⟨9, 48000, 1, [5, 5, 5, 5, 5, 5, 5, 5]⟩] []).1,
    (dense_buffer_length 0 10 4 [⟨2, 48000, 1, [1, 2, 3, 4, 5, 6, 7, 8, 9]⟩,
      ⟨3, 48000, 1, [7, 7]⟩] []).2.2.2 [⟨2, 48000, 1, [1, 2, 3, 4, 5, 6, 7, 8, 9]⟩]
      ⟨3, 48000, 1, [7, 7]⟩ rfl (by decide) (by decide)⟩

/-- Claim C8: for every non-empty `--players` value, the `playerIDs` list built by the command
(the result of the loop over the split value) is the value split on `,`, each token trimmed,
the empty tokens dropped and exactly the tokens matching `^7656\d{13}$` kept, in their order and
with duplicates; the non-empty tokens that do not match are exactly the skipped IDs, in the same
order. The core receives the first list. -/
theorem playerIDs_eq_filtered_tokens {E : Type} (env : Env E)
    (playerFilter formatOption demoPath : String) (hne : playerFilter ≠ "") :
    parsePlayers playerFilter = playerLoop (Split playerFilter ',') ([], []) ∧
      (parsePlayers playerFilter).1 =
        (((Split playerFilter ',').map TrimSpace).filter (fun t => t ≠ "")).filter
          (fun t => MatchString steamID64Regex t) ∧
      (parsePlayers playerFilter).2 =
        (((Split playerFilter ',').map TrimSpace).filter (fun t => t ≠ "")).filter
          (fun t => !MatchString steamID64Regex t) ∧
      (RunE env playerFilter formatOption demoPath).warned = (parsePlayers playerFilter).2 ∧
      (∀ o ∈ (RunE env playerFilter formatOption demoPath).calls,
        o.PlayerIDs = (parsePlayers playerFilter).1) := by
  have hpp := parsePlayers_eq playerFilter
  refine ⟨?_, ?_, ?_, ?_, ?_⟩
  · simp only [parsePlayers, ne_eq, hne, not_false_eq_true, if_true]
  · rw [hpp]; rfl
  · rw [hpp]; rfl
  · rw [hpp]; exact warned_eq env playerFilter formatOption demoPath
  · intro o ho
    obtain ⟨-, -, rfl⟩ := mem_calls env playerFilter formatOption demoPath o ho
    rw [hpp]; rfl

theorem playerIDs_eq_filtered_tokens_witness :
    " 76561198000000002,,x y , 76561198000000001 ,76561198000000002,7656" ≠ "" ∧
      (parsePlayers " 76561198000000002,,x y , 76561198000000001 ,76561198000000002,7656").1 =
        ["76561198000000002", "76561198000000001", "76561198000000002"] ∧
      (parsePlayers " 76561198000000002,,x y , 76561198000000001 ,76561198000000002,7656").2 =
        ["x y", "7656"] ∧
      (RunE sampleEnv " 76561198000000002,,x y , 76561198000000001 ,76561198000000002,7656"
        "wav" "match.dem").warned = ["x y", "7656"] :=
  have h := playerIDs_eq_filtered_tokens sampleEnv
    " 76561198000000002,,x y , 76561198000000001 ,76561198000000002,7656" "wav" "match.dem"
    (by decide)
  ⟨by decide, h.2.1.trans (by decide), h.2.2.1.trans (by decide),
    h.2.2.2.1.trans (h.2.2.1.trans (by decide))⟩

/-- Claim C9: when the `--format` value is the empty string the command defaults to WAV: every
call of `ExtractVoiceData` carries `Format = "wav"`, the unsupported-format error is never
returned, whatever `GetSupportedFormats()` returns, and unless the player filter is rejected
the core is called once with that format. -/
theorem empty_format_defaults_to_wav {E : Type} (env : Env E) (playerFilter demoPath : String) :
    (∀ o ∈ (RunE env playerFilter "" demoPath).calls, o.Format = "wav") ∧
      ¬ IsUnsupportedFormatError (RunE env playerFilter "" demoPath).err ∧
      (¬ IsNoValidIDsError (RunE env playerFilter "" demoPath).err →
        (RunE env playerFilter "" demoPath).calls =
          [⟨demoPath, env.Opts.AbsOutputDir, env.Opts.ForceOverwrite,
            (parsePlayers playerFilter).1, "wav"⟩]) := by
  have hnf : ¬ FormatRejected env.caseRanges env.GetSupportedFormats "" :=
    fun h => h.1 rfl
  refine ⟨?_, ?_, ?_⟩
  · intro o ho
    obtain ⟨-, -, rfl⟩ := mem_calls env playerFilter "" demoPath o ho
    rfl
  · intro h
    exact hnf ((unsupportedFormatError_iff env playerFilter "" demoPath).1 h).2
  · intro hp
    have hp2 : ¬ PlayersRejected playerFilter :=
      fun h => hp ((noValidIDsError_iff env playerFilter "" demoPath).2 h)
    rw [calls_accepted env playerFilter "" demoPath hp2 hnf, parsePlayers_eq]
    rfl

theorem empty_format_defaults_to_wav_witness :
    (RunE sampleEnvNoWav "76561198000000001" "" "match.dem").calls =
        [⟨"match.dem", "/tmp/out", false, ["76561198000000001"], "wav"⟩] ∧
      ¬ IsUnsupportedFormatError (RunE sampleEnvNoWav "76561198000000001" "" "match.dem").err :=
  have h := empty_format_defaults_to_wav sampleEnvNoWav "76561198000000001" "match.dem"
  ⟨(h.2.2 (fun hn => absurd ((noValidIDsError_iff sampleEnvNoWav _ _ _).1 hn)
      (by decide))).trans (by decide), h.2.1⟩

/-- Claim C10: if the `--players` value is empty, or is made of commas and white space only,
the player-filter validation raises no error, `ExtractVoiceData` receives an empty `PlayerIDs`
list, and the whole run is the run of the command without a filter. -/
theorem blank_filter_is_unfiltered {E : Type} (env : Env E)
    (playerFilter formatOption demoPath : String)
    (h : playerFilter = "" ∨ ∀ c ∈ playerFilter.data, c = ',' ∨ IsSpace c = true) :
    ¬ IsNoValidIDsError (RunE env playerFilter formatOption demoPath).err ∧
      (∀ o ∈ (RunE env playerFilter formatOption demoPath).calls, o.PlayerIDs = []) ∧
      (RunE env playerFilter formatOption demoPath).warned = [] ∧
      RunE env playerFilter formatOption demoPath = RunE env "" formatOption demoPath := by
  have hblank : ∀ c ∈ playerFilter.data, c = ',' ∨ IsSpace c = true := by
    rcases h with rfl | h
    · intro c hc; simp at hc
    · exact h
  have htok := specTokens_of_blank playerFilter hblank
  have hp : ¬ PlayersRejected playerFilter := not_rejected_of_no_tokens playerFilter htok
  have hp0 : ¬ PlayersRejected "" := by decide
  have hvalid : specPlayerIDs playerFilter = [] := by simp [specPlayerIDs, htok]
  have hinvalid : specInvalidIDs playerFilter = [] := by simp [specInvalidIDs, htok]
  have hopts : specOptions env playerFilter formatOption demoPath =
      specOptions env "" formatOption demoPath := by
    simp only [specOptions, hvalid]; rfl
  refine ⟨fun hn => hp ((noValidIDsError_iff env _ _ _).1 hn), ?_, ?_, ?_⟩
  · intro o ho
    obtain ⟨-, -, rfl⟩ := mem_calls env playerFilter formatOption demoPath o ho
    exact hvalid
  · rw [warned_eq, hinvalid]
  · by_cases hf : FormatRejected env.caseRanges env.GetSupportedFormats formatOption
    · rw [RunE_format_rejected env playerFilter formatOption demoPath hp hf,
        RunE_format_rejected env "" formatOption demoPath hp0 hf, hinvalid]
      rfl
    · rw [RunE_accepted env playerFilter formatOption demoPath hp hf,
        RunE_accepted env "" formatOption demoPath hp0 hf, hopts, hvalid, hinvalid]
      rfl

theorem blank_filter_is_unfiltered_witness :
    (" , ," = "" ∨ ∀ c ∈ " , ,".data, c = ',' ∨ IsSpace c = true) ∧
      (RunE sampleEnv " , ," "wav" "match.dem").calls =
        [⟨"match.dem", "/tmp/out", false, [], "wav"⟩] ∧
      (RunE sampleEnv " , ," "wav" "match.dem").err = none :=
  have h := blank_filter_is_unfiltered sampleEnv " , ," "wav" "match.dem"
    (Or.inr (by decide))
  ⟨Or.inr (by decide), (congrArg Outcome.calls h.2.2.2).trans (by decide),
    (congrArg Outcome.err h.2.2.2).trans (by decide)⟩

end Cs2VoiceTools
